import Mathlib

/-!
Verification development for the FlowCal repository (fc/io.py and the gate
module exercised by test/test_gate.py).

The decoder TaborLabFCSFile.load_from_file of fc/io.py is embedded shallowly:
the byte stream is a list of characters, Python exceptions become an explicit
error type, and each contiguous block of the Python function becomes a Lean
definition with the same observable behaviour.  The gate module itself is not
part of the available sources (only its unit tests are), so the three gates
are modelled from the specification, as marked in their doc comments.
-/

set_option maxHeartbeats 1000000
set_option maxRecDepth 100000

/-- Decidable equality of fallible results, used to evaluate the decoder at
concrete inputs. -/
instance {ε α : Type} [DecidableEq ε] [DecidableEq α] :
    DecidableEq (Except ε α) := fun
  | .ok a, .ok b =>
    if h : a = b then .isTrue (by rw [h])
    else .isFalse (by intro hc; cases hc; exact h rfl)
  | .error e, .error f =>
    if h : e = f then .isTrue (by rw [h])
    else .isFalse (by intro hc; cases hc; exact h rfl)
  | .ok _, .error _ => .isFalse (by intro hc; cases hc)
  | .error _, .ok _ => .isFalse (by intro hc; cases hc)

namespace FlowCal

/-- Python exception classes raised (directly or by builtins) inside
load_from_file.  The decoder itself raises only TypeError and ImportError;
KeyError comes from dict indexing, ValueError from int() and numpy.memmap,
IndexError from del on an empty list, IOError from seeking to a negative
offset. -/
inductive PyErr where
  | typeError (msg : String)
  | importError (msg : String)
  | keyError (key : List Char)
  | valueError (msg : String)
  | indexError
  | ioError
deriving DecidableEq, Repr

/-- A seekable read-only binary stream: the full contents plus the current
position, as used by the Python file object f. -/
structure Stream where
  contents : List Char
  pos : Nat
deriving DecidableEq, Repr

/-- f.read(n): returns min(n, remaining) characters and advances the
position by the number of characters actually read. -/
def Stream.read (s : Stream) (n : Nat) : List Char × Stream :=
  ((s.contents.drop s.pos).take n,
   { s with pos := s.pos + min n (s.contents.length - s.pos) })

/-- f.seek(i): Python 2 raises IOError on a negative target; seeking past
the end is allowed. -/
def Stream.seekTo (s : Stream) (i : Int) : Except PyErr Stream :=
  if i < 0 then .error .ioError else .ok { s with pos := i.toNat }

/-- f.read(n) where n was computed as a possibly negative int: CPython 2
reads the whole rest of the file when n is negative. -/
def Stream.readAmount (s : Stream) (n : Int) : List Char × Stream :=
  if n < 0 then
    (s.contents.drop s.pos, { s with pos := s.contents.length })
  else s.read n.toNat

/-- Characters stripped by Python int() around a numeric literal. -/
def isPySpace (c : Char) : Bool :=
  c = ' ' || c = '\t' || c = '\n' || c = '\r' || c = '\x0b' || c = '\x0c'

/-- Value of a nonempty string of decimal digits. -/
def digitsToNat (ds : List Char) : Nat :=
  ds.foldl (fun a c => 10 * a + (c.toNat - 48)) 0

/-- Python int(s) for strings: strip whitespace, optional sign, at least one
digit; anything else raises ValueError (modelled as none). -/
def pyInt (s : List Char) : Option Int :=
  let t := ((s.dropWhile isPySpace).reverse.dropWhile isPySpace).reverse
  match t with
  | [] => none
  | '-' :: ds =>
      if ds ≠ [] ∧ ds.all Char.isDigit then some (-(digitsToNat ds : Int))
      else none
  | '+' :: ds =>
      if ds ≠ [] ∧ ds.all Char.isDigit then some (digitsToNat ds : Int)
      else none
  | ds =>
      if ds.all Char.isDigit then some (digitsToNat ds : Int) else none

/-- int() lifted to the exception monad. -/
def pyIntE (s : List Char) : Except PyErr Int :=
  match pyInt s with
  | some i => .ok i
  | none => .error (.valueError "invalid literal for int()")

/-- Python str.split(sep) for a single-character separator: text.split(sep)
in line 113 of io.py.  The empty string splits to a single empty token. -/
def splitOnChar (sep : Char) : List Char → List (List Char)
  | [] => [[]]
  | c :: rest =>
    let r := splitOnChar sep rest
    if c = sep then [] :: r
    else
      match r with
      | [] => [[c]]
      | t :: ts => (c :: t) :: ts

/-- The TEXT-section dictionary: key-value pairs in insertion order. -/
abbrev Dict := List (List Char × List Char)

/-- Lookup in dict(zip(keys, values)): a later binding of the same key
overwrites an earlier one, so the last matching pair wins. -/
def dictGet : Dict → List Char → Option (List Char)
  | [], _ => none
  | (k, v) :: rest, key =>
    match dictGet rest key with
    | some v2 => some v2
    | none => if k = key then some v else none

/-- text[k]: dict indexing raises KeyError when the key is absent. -/
def pyGetE (d : Dict) (k : List Char) : Except PyErr (List Char) :=
  match dictGet d k with
  | some v => .ok v
  | none => .error (.keyError k)

/-- zip(l[0::2], l[1::2]) in line 139 of io.py: pair up alternating tokens;
a trailing unpaired token is dropped (zip truncates). -/
def pairTokens : List (List Char) → Dict
  | k :: v :: rest => (k, v) :: pairTokens rest
  | _ => []

/-- Lines 113-137 of io.py: the three structural checks on the token list
obtained by splitting the TEXT section.  The first and last tokens must be
empty and are then deleted; an empty interior token or an odd token count is
rejected.  On a singleton list the second del operates on an empty list,
which is an IndexError in Python. -/
def textChecks (l : List (List Char)) : Except PyErr (List (List Char)) :=
  match l with
  | [] => .error .indexError
  | x :: xs =>
    if x ≠ [] ∨ (x :: xs).getLastD [] ≠ [] then
      .error (.importError "error parsing TEXT section")
    else
      match xs with
      | [] => .error .indexError
      | _ :: _ =>
        let l2 := xs.dropLast
        if l2.any (fun t => t.isEmpty) then
          .error (.importError "error parsing TEXT section: delimiter used in keyword or value.")
        else if l2.length % 2 ≠ 0 then
          .error (.importError "error parsing TEXT section: odd # of key-value entries")
        else .ok l2

/-- The four header offsets read in lines 94-98 of io.py. -/
structure Header where
  textBegin : Int
  textEnd : Int
  dataBegin : Int
  dataEnd : Int
deriving DecidableEq, Repr

/-- Lines 87-98 of io.py: read the 10-byte version tag, reject anything but
the FCS2.0 literal with a TypeError, then parse the four 8-byte ASCII offset
fields with int(). -/
def readHeader (contents : List Char) : Except PyErr Header := do
  let s0 : Stream := ⟨contents, 0⟩
  let (ver, s1) := s0.read 10
  if ver ≠ ("FCS2.0    ").toList then
    throw (.typeError "incorrection FCS file version")
  let (a, s2) := s1.read 8
  let textBegin ← pyIntE a
  let (b, s3) := s2.read 8
  let textEnd ← pyIntE b
  let (c, s4) := s3.read 8
  let dataBegin ← pyIntE c
  let (d, _) := s4.read 8
  let dataEnd ← pyIntE d
  return ⟨textBegin, textEnd, dataBegin, dataEnd⟩

/-- Lines 103-139 of io.py: seek to the TEXT section, read its first byte as
the separator, re-read the whole section (length (end+1)-begin, offsets being
inclusive boundaries), split on the separator, run the structural checks and
build the metadata dictionary.  The stream position before the first seek is
irrelevant, since seeking discards it.  Splitting on an empty separator
(read at end of file) is a ValueError in Python. -/
def readText (contents : List Char) (h : Header) : Except PyErr Dict := do
  let s1 ← Stream.seekTo ⟨contents, 0⟩ h.textBegin
  let (sepL, s2) := s1.read 1
  let s3 ← s2.seekTo h.textBegin
  let (txt, _) := s3.readAmount (h.textEnd + 1 - h.textBegin)
  let sep ← match sepL with
    | [ch] => Except.ok ch
    | _ => Except.error (.valueError "empty separator")
  let tokens ← textChecks (splitOnChar sep txt)
  return pairTokens tokens

/-- The decimal digits of a natural number, most significant first; the
fuel argument (any bound above the digit count, here n + 1) keeps the
recursion structural. -/
def natToDigitsAux : Nat → Nat → List Char
  | 0, _ => []
  | fuel + 1, n =>
    if n < 10 then [Char.ofNat (48 + n)]
    else natToDigitsAux fuel (n / 10) ++ [Char.ofNat (48 + n % 10)]

/-- The decimal digits of a natural number, most significant first. -/
def natToDigits (n : Nat) : List Char := natToDigitsAux (n + 1) n

/-- The key string produced by the format expression in line 152 of io.py. -/
def pnbKey (c : Nat) : List Char :=
  ("$P").toList ++ natToDigits c ++ ("B").toList

/-- Lines 152-153 of io.py: look up and parse $PnB for n = 1..num_channels;
xrange is empty when num_channels is not positive. -/
def collectBits (text : Dict) (n : Int) : Except PyErr (List Int) :=
  ((List.range n.toNat).map (· + 1)).mapM (fun c => do
    let s ← pyGetE text (pnbKey c)
    pyIntE s)

/-- Lines 142-159 of io.py: the profile checks on the metadata dictionary,
in source order.  Missing mandatory keys surface as KeyError, unparsable
integers as ValueError; the explicit checks raise TypeError.  Returns
num_channels. -/
def confirmAssumptions (text : Dict) : Except PyErr Int := do
  let dt ← pyGetE text ("$DATATYPE").toList
  if dt ≠ ("I").toList then
    throw (.typeError "FCS file $DATATYPE is not I")
  let md ← pyGetE text ("$MODE").toList
  if md ≠ ("L").toList then
    throw (.typeError "FCS file $MODE is not L")
  let bo ← pyGetE text ("$BYTEORD").toList
  if bo ≠ ("4,3,2,1").toList then
    throw (.typeError "FCS file $BYTEORD is not 4,3,2,1")
  let parS ← pyGetE text ("$PAR").toList
  let numChannels ← pyIntE parS
  let bits ← collectBits text numChannels
  if ¬ (bits.all (fun b => b = 16)) then
    throw (.typeError "channel bit width error: $PnB != 16 for all parameters (channels)")
  let nd ← pyGetE text ("$NEXTDATA").toList
  if nd ≠ ("0").toList then
    throw (.typeError "FCS file contains more than one data set")
  return numChannels

/-- The fields a channel dictionary carries beyond label and number
(only channels 1 to 5 in lines 179-218 of io.py receive them). -/
structure ExtChannelFields where
  pmt_voltage : Option (List Char)
  lin_gain_100x : Option (List Char)
  amplifier : Option (List Char)
  threshold : Option (List Char)
deriving DecidableEq, Repr

/-- One entry of channel_info.  extended is some for the dictionaries that
carry the BD$WORD derived keys and none for the sixth one, which has only
label and number. -/
structure Channel where
  label : Option (List Char)
  number : Nat
  extended : Option ExtChannelFields
deriving DecidableEq, Repr

/-- Lines 169-177 of io.py: map the amplifier flag to a readable string;
None passes through and an unrecognized value is an ImportError. -/
def amp (a : Option (List Char)) : Except PyErr (Option (List Char)) :=
  match a with
  | none => .ok none
  | some v =>
    if v = ("1").toList then .ok (some ("lin").toList)
    else if v = ("0").toList then .ok (some ("log").toList)
    else .error (.importError "unrecognized amplifier setting")

/-- Lines 179-224 of io.py: build the six channel dictionaries.  The amp
calls are evaluated in source order (BD$WORD23 through BD$WORD27); channel 6
gets only label and number. -/
def buildChannels (text : Dict) : Except PyErr (List Channel) := do
  let a1 ← amp (dictGet text ("BD$WORD23").toList)
  let a2 ← amp (dictGet text ("BD$WORD24").toList)
  let a3 ← amp (dictGet text ("BD$WORD25").toList)
  let a4 ← amp (dictGet text ("BD$WORD26").toList)
  let a5 ← amp (dictGet text ("BD$WORD27").toList)
  return [
    ⟨dictGet text ("$P1N").toList, 1,
      some ⟨dictGet text ("BD$WORD13").toList, dictGet text ("BD$WORD18").toList,
            a1, dictGet text ("BD$WORD29").toList⟩⟩,
    ⟨dictGet text ("$P2N").toList, 2,
      some ⟨dictGet text ("BD$WORD14").toList, dictGet text ("BD$WORD19").toList,
            a2, dictGet text ("BD$WORD30").toList⟩⟩,
    ⟨dictGet text ("$P3N").toList, 3,
      some ⟨dictGet text ("BD$WORD15").toList, dictGet text ("BD$WORD20").toList,
            a3, dictGet text ("BD$WORD31").toList⟩⟩,
    ⟨dictGet text ("$P4N").toList, 4,
      some ⟨dictGet text ("BD$WORD16").toList, dictGet text ("BD$WORD21").toList,
            a4, dictGet text ("BD$WORD32").toList⟩⟩,
    ⟨dictGet text ("$P5N").toList, 5,
      some ⟨dictGet text ("BD$WORD17").toList, dictGet text ("BD$WORD22").toList,
            a5, dictGet text ("BD$WORD33").toList⟩⟩,
    ⟨dictGet text ("$P6N").toList, 6, none⟩]

/-- Big-endian unsigned 2-byte integers from a byte list; an odd trailing
byte yields no value, matching a 2-byte element type. -/
def beU16 : List Char → List Nat
  | hi :: lo :: rest => (hi.toNat * 256 + lo.toNat) :: beU16 rest
  | _ => []

/-- Row-major reshape to the given number of rows with cols values each. -/
def chunkRows (cols : Nat) : Nat → List Nat → List (List Nat)
  | 0, _ => []
  | r + 1, xs => xs.take cols :: chunkRows cols r (xs.drop cols)

/-- np.memmap(f, dtype big-endian u2, mode r, offset, shape, order C) in
lines 238-245 of io.py, followed by np.array: interpret bytes at the
absolute offset as a rows x cols matrix.  numpy raises ValueError for a
negative offset or shape and when the file is shorter than offset plus the
mapped extent. -/
def memmapRead (contents : List Char) (offset rows cols : Int) :
    Except PyErr (List (List Nat)) :=
  if offset < 0 ∨ rows < 0 ∨ cols < 0 then
    .error (.valueError "memmap: invalid offset or shape")
  else if contents.length < offset.toNat + rows.toNat * cols.toNat * 2 then
    .error (.valueError "mmap length is greater than file size")
  else
    .ok (chunkRows cols.toNat rows.toNat
      (beU16 ((contents.drop offset.toNat).take (rows.toNat * cols.toNat * 2))))

/-- Lines 229-249 of io.py: shape = (int(text[$TOT]), int(text[$PAR])), the
DATA size sanity check against the inclusive data offsets, then the memmap
read. -/
def readData (contents : List Char) (h : Header) (text : Dict) :
    Except PyErr (List (List Nat)) := do
  let tot ← pyIntE (← pyGetE text ("$TOT").toList)
  let par ← pyIntE (← pyGetE text ("$PAR").toList)
  if tot * par * 2 ≠ (h.dataEnd + 1) - h.dataBegin then
    throw (.importError "DATA size does not match expected array size")
  memmapRead contents h.dataBegin tot par

/-- The triple returned by load_from_file. -/
structure FCSResult where
  data : List (List Nat)
  text : Dict
  channel_info : List Channel
deriving DecidableEq, Repr

/-- The body of load_from_file (lines 87-249 of io.py) on the byte contents
of the stream: header, TEXT section, profile checks, channel descriptors,
DATA section. -/
def decodeFCS (contents : List Char) : Except PyErr FCSResult := do
  let h ← readHeader contents
  let text ← readText contents h
  let _numChannels ← confirmAssumptions text
  let chans ← buildChannels text
  let data ← readData contents h text
  return ⟨data, text, chans⟩

/-- load_from_file with its entry and exit framing (lines 79-82 and 251-253
of io.py): isPath tells whether infile was a string, in which case the
function opened the file itself.  The returned Bool records whether f.close()
ran.  The close call sits on the straight-line success path with no
try/finally, so a raised exception skips it. -/
def load_from_file (isPath : Bool) (contents : List Char) :
    Except PyErr FCSResult × Bool :=
  match decodeFCS contents with
  | .ok r => (.ok r, isPath)
  | .error e => (.error e, false)

/-! ## The gating engine, modelled from the specification

The gate module itself (fc/gate.py) is not among the available sources; only
its unit tests are.  Per the specification, every gate takes a matrix,
returns the gated matrix together with a boolean retention mask (bundled when
full output is requested), retains rows in their original order, and never
mutates its input. -/

/-- Error raised by a gate on invalid parameters. -/
inductive GateErr where
  | valueError
deriving DecidableEq, Repr

/-- A gated matrix together with its boolean retention mask (the full-output
bundle of the specification). -/
structure GateResult (α : Type) where
  gated_data : List α
  mask : List Bool
deriving DecidableEq, Repr

/-- Rows of the input at the positions where the mask is true, in order. -/
def maskFilter {α : Type} : List α → List Bool → List α
  | x :: xs, true :: ms => x :: maskFilter xs ms
  | _ :: xs, false :: ms => maskFilter xs ms
  | _, _ => []

/-- Modelled from the spec: fc/gate.start_end is not under src/.  Drops the
first num_start and last num_end rows; the mask is false on exactly the head
and tail blocks; ValueError when the two counts exceed the row count. -/
def startEndMask (len num_start num_end : Nat) : List Bool :=
  List.replicate num_start false ++
    List.replicate (len - num_start - num_end) true ++
    List.replicate num_end false

/-- Modelled from the spec: fc/gate.start_end is not under src/ (continued).
The gate itself: ValueError when the two counts exceed the row count,
otherwise the mask applied to the rows. -/
def start_end {α : Type} (d : List α) (num_start num_end : Nat) :
    Except GateErr (GateResult α) :=
  if num_start + num_end > d.length then .error .valueError
  else .ok ⟨maskFilter d (startEndMask d.length num_start num_end),
            startEndMask d.length num_start num_end⟩

/-- Number of columns of a row-major matrix, read off its first row. -/
def numCols (d : List (List Int)) : Nat :=
  match d with
  | [] => 0
  | r :: _ => r.length

/-- Modelled from the spec: the channel selection of high_low; an empty
selection means all channels. -/
def selectedChannels (ncols : Nat) (channels : List Nat) : List Nat :=
  if channels.isEmpty then List.range ncols else channels

/-- Modelled from the spec: a row passes the high_low gate when its value on
every selected channel is strictly inside the bounds; an omitted bound
(none) admits the full value range. -/
def rowPass (low high : Option Int) (sel : List Nat) (row : List Int) : Bool :=
  sel.all (fun c =>
    (match low with
     | none => true
     | some lo => decide (lo < row.getD c 0)) &&
    (match high with
     | none => true
     | some hi => decide (row.getD c 0 < hi)))

/-- Modelled from the spec: fc/gate.high_low is not under src/.  Retains the
rows passing rowPass on the (empty means all) selected channels; mask and
gated matrix are produced together. -/
def high_low (d : List (List Int)) (channels : List Nat)
    (low high : Option Int) : GateResult (List Int) :=
  let sel := selectedChannels (numCols d) channels
  ⟨maskFilter d (d.map (rowPass low high sel)), d.map (rowPass low high sel)⟩

/-- Number of events scoring at or above t. -/
def countGE (scores : List Int) (t : Int) : Nat :=
  (scores.filter (fun s => t ≤ s)).length

/-- Maximum of a list of integers, none when empty. -/
def listMax? : List Int → Option Int
  | [] => none
  | x :: xs => some (xs.foldl max x)

/-- Minimum of a list of integers, none when empty. -/
def listMin? : List Int → Option Int
  | [] => none
  | x :: xs => some (xs.foldl min x)

/-- The smallest admissible retained count for gate fraction a/b over N
events: the ceiling of a*N/b. -/
def neededCount (a b n : Nat) : Nat := (a * n + b - 1) / b

/-- Modelled from the spec: steps 4 and 5 of density2d.  Walking the scores
in descending order, the threshold reached is the largest score value whose
at-or-above count meets the needed fraction; the mask retains every event
scoring at or above it, including ties. -/
def densityMask (scores : List Int) (a b : Nat) : List Bool :=
  match listMax? (scores.filter
      (fun t => decide (neededCount a b scores.length ≤ countGE scores t))) with
  | some thr => scores.map (fun s => decide (thr ≤ s))
  | none => scores.map (fun _ => false)

/-- Modelled from the spec: fc/gate.density2d is not under src/.  The kernel
density estimation over the two selected channels at a fixed bandwidth and
grid (steps 1 to 3, whose concrete rule the specification leaves open) is
abstracted as the score function; identical input, channel pair, bandwidth
and grid yield identical scores.  The gate fraction is the rational a/b. -/
def density2d (score : List Int → Int) (d : List (List Int)) (a b : Nat) :
    GateResult (List Int) :=
  let scores := d.map score
  let mask := densityMask scores a b
  ⟨maskFilter d mask, mask⟩

/-! ## Concrete input files

Well-formed and malformed byte strings used to evaluate the decoder at
explicit inputs.  Offsets follow the layout of load_from_file: bytes 0-9
version, then four 8-byte ASCII offset fields, TEXT at byte 42.  The DATA
bytes are printable so the whole file is one string literal. -/

/-- A well-formed file: 2 channels, 3 events, TEXT of length 80 at bytes
42-121, DATA of 12 bytes at 122-133. -/
def fileGood : List Char :=
  ("FCS2.0          42     121     122     133/$DATATYPE/I/$MODE/L/$BYTEORD/4,3,2,1/$PAR/2/$P1B/16/$P2B/16/$NEXTDATA/0/$TOT/3/ABCDEFGHIJKL").toList

/-- fileGood with a version tag the decoder does not support. -/
def fileBadVersion : List Char :=
  ("FCS3.0          42     121     122     133/$DATATYPE/I/$MODE/L/$BYTEORD/4,3,2,1/$PAR/2/$P1B/16/$P2B/16/$NEXTDATA/0/$TOT/3/ABCDEFGHIJKL").toList

/-- A file whose TEXT section does not end with the delimiter: the last
split token is nonempty. -/
def fileBadText : List Char :=
  ("FCS2.0          42      53      54      54/$DATATYPE/I").toList

/-- fileGood without the $DATATYPE key: TEXT of length 68 at bytes 42-109,
DATA at 110-121. -/
def fileNoDatatype : List Char :=
  ("FCS2.0          42     109     110     121/$MODE/L/$BYTEORD/4,3,2,1/$PAR/2/$P1B/16/$P2B/16/$NEXTDATA/0/$TOT/3/ABCDEFGHIJKL").toList

/-- fileGood without the $P2B key although $PAR is 2: TEXT of length 72 at
bytes 42-113, DATA at 114-125. -/
def fileNoPnB : List Char :=
  ("FCS2.0          42     113     114     125/$DATATYPE/I/$MODE/L/$BYTEORD/4,3,2,1/$PAR/2/$P1B/16/$NEXTDATA/0/$TOT/3/ABCDEFGHIJKL").toList

/-- fileGood without the $TOT key: TEXT of length 73 at bytes 42-114, DATA
at 115-126. -/
def fileNoTot : List Char :=
  ("FCS2.0          42     114     115     126/$DATATYPE/I/$MODE/L/$BYTEORD/4,3,2,1/$PAR/2/$P1B/16/$P2B/16/$NEXTDATA/0/ABCDEFGHIJKL").toList

/-! ## Helper lemmas on maskFilter and list access -/

theorem maskFilter_nil {α : Type} (ms : List Bool) :
    maskFilter ([] : List α) ms = [] := by
  cases ms <;> rfl

theorem maskFilter_none {α : Type} (xs : List α) : maskFilter xs [] = [] := by
  cases xs <;> rfl

theorem maskFilter_cons_true {α : Type} (x : α) (xs : List α) (ms : List Bool) :
    maskFilter (x :: xs) (true :: ms) = x :: maskFilter xs ms := rfl

theorem maskFilter_cons_false {α : Type} (x : α) (xs : List α) (ms : List Bool) :
    maskFilter (x :: xs) (false :: ms) = maskFilter xs ms := rfl

theorem maskFilter_replicate_false {α : Type} (k : Nat) :
    ∀ (xs : List α) (ms : List Bool),
      maskFilter xs (List.replicate k false ++ ms) = maskFilter (xs.drop k) ms := by
  induction k with
  | zero => intro xs ms; simp
  | succ n ih =>
    intro xs ms
    cases xs with
    | nil => simp [maskFilter_nil]
    | cons x xs => simpa [List.replicate_succ, maskFilter_cons_false] using ih xs ms

theorem maskFilter_replicate_true {α : Type} (k : Nat) :
    ∀ (xs : List α) (ms : List Bool),
      maskFilter xs (List.replicate k true ++ ms) =
        xs.take k ++ maskFilter (xs.drop k) ms := by
  induction k with
  | zero => intro xs ms; simp
  | succ n ih =>
    intro xs ms
    cases xs with
    | nil => simp [maskFilter_nil]
    | cons x xs => simpa [List.replicate_succ, maskFilter_cons_true] using ih xs ms

theorem maskFilter_map_filter {α : Type} (p : α → Bool) (d : List α) :
    maskFilter d (d.map p) = d.filter p := by
  induction d with
  | nil => rfl
  | cons x xs ih =>
    cases hp : p x <;>
      simp [hp, maskFilter_cons_true, maskFilter_cons_false, List.filter_cons, ih]

theorem getD_append_general {α : Type} (l l' : List α) (i : Nat) (d : α) :
    (l ++ l').getD i d = if i < l.length then l.getD i d else l'.getD (i - l.length) d := by
  induction l generalizing i with
  | nil => simp
  | cons x xs ih =>
    cases i with
    | zero => simp
    | succ j => simpa [Nat.succ_lt_succ_iff] using ih j

theorem getD_replicate {α : Type} (k : Nat) (c d : α) :
    ∀ i, (List.replicate k c).getD i d = if i < k then c else d := by
  induction k with
  | zero => intro i; simp
  | succ n ih =>
    intro i
    cases i with
    | zero => simp [List.replicate_succ]
    | succ j => simpa [List.replicate_succ, Nat.succ_lt_succ_iff] using ih j

/-! ## C4: the start and end trim gate -/

/-- C4.  For every L-row input matrix and counts a, b: start_end raises
ValueError exactly when a + b exceeds L; otherwise it returns the rows with
indices in the interval from a to L - b in order, its mask has length L and
is true exactly away from the first a and last b positions, and the gated
matrix is the mask applied to the input. -/
theorem startEnd_spec (d : List (List Int)) (a b : Nat) :
    (start_end d a b = .error .valueError ↔ d.length < a + b) ∧
    (∀ res, start_end d a b = .ok res →
      res.gated_data = (d.drop a).take (d.length - a - b) ∧
      res.mask.length = d.length ∧
      (∀ i, i < d.length →
        (res.mask.getD i false = true ↔ a ≤ i ∧ i < d.length - b)) ∧
      res.gated_data = maskFilter d res.mask) := by
  constructor
  · unfold start_end
    by_cases h : a + b > d.length <;> simp [h]
  · intro res hres
    unfold start_end at hres
    by_cases h : a + b > d.length
    · simp [h] at hres
    · simp only [h, if_neg, if_false] at hres
      injection hres with hres
      subst hres
      have hmaskD : ∀ i, (startEndMask d.length a b).getD i false = true ↔
          (a ≤ i ∧ i < a + (d.length - a - b)) := by
        intro i
        unfold startEndMask
        rw [List.append_assoc, getD_append_general, getD_append_general]
        simp only [List.length_replicate, getD_replicate]
        split_ifs <;> try simp_all
        all_goals omega
      refine ⟨?_, ?_, ?_, rfl⟩
      · show maskFilter d (startEndMask d.length a b) = _
        unfold startEndMask
        rw [List.append_assoc, maskFilter_replicate_false, maskFilter_replicate_true]
        have hz : maskFilter ((d.drop a).drop (d.length - a - b))
            (List.replicate b false) = [] := by
          have hb := maskFilter_replicate_false b
            ((d.drop a).drop (d.length - a - b)) []
          simpa [maskFilter_none] using hb
        rw [hz, List.append_nil]
      · show (startEndMask d.length a b).length = d.length
        unfold startEndMask
        simp only [List.length_append, List.length_replicate]
        omega
      · intro i hi
        rw [hmaskD i]
        omega

/-- Witness for C4 on the 10-row fixture of the start_end unit tests with
num_start 2 and num_end 3. -/
def testMatrix : List (List Int) :=
  [[1, 7, 2], [2, 8, 3], [3, 9, 4], [4, 10, 5], [5, 1, 6],
   [6, 2, 7], [7, 3, 8], [8, 4, 9], [9, 5, 10], [10, 6, 1]]

/-- The expected full output of start_end on the fixture. -/
def testStartEndResult : GateResult (List Int) :=
  ⟨[[3, 9, 4], [4, 10, 5], [5, 1, 6], [6, 2, 7], [7, 3, 8]],
   [false, false, true, true, true, true, true, false, false, false]⟩

theorem startEnd_spec_witness :
    testStartEndResult.gated_data =
      (testMatrix.drop 2).take (testMatrix.length - 2 - 3) ∧
    testStartEndResult.mask.length = testMatrix.length ∧
    (∀ i, i < testMatrix.length →
      (testStartEndResult.mask.getD i false = true ↔
        2 ≤ i ∧ i < testMatrix.length - 3)) ∧
    testStartEndResult.gated_data = maskFilter testMatrix testStartEndResult.mask :=
  (startEnd_spec testMatrix 2 3).2 testStartEndResult (by decide)

/-! ## C5: the high and low range gate -/

/-- C5.  The high_low gate retains a row exactly when, on every selected
channel (an empty selection meaning all channels), its value lies strictly
between low and high; rows are kept in order, and omitting both bounds
retains every row. -/
theorem highLow_spec (d : List (List Int)) (channels : List Nat)
    (lo hi : Int) :
    ((high_low d channels (some lo) (some hi)).gated_data =
      d.filter (rowPass (some lo) (some hi)
        (selectedChannels (numCols d) channels))) ∧
    (∀ row, rowPass (some lo) (some hi)
        (selectedChannels (numCols d) channels) row = true ↔
      ∀ c ∈ selectedChannels (numCols d) channels,
        lo < row.getD c 0 ∧ row.getD c 0 < hi) ∧
    ((high_low d channels none none).gated_data = d) ∧
    ((high_low d channels none none).mask = List.replicate d.length true) := by
  refine ⟨?_, ?_, ?_, ?_⟩
  · exact maskFilter_map_filter _ d
  · intro row
    simp [rowPass, List.all_eq_true]
  · show maskFilter d _ = d
    have hmap : d.map (rowPass none none (selectedChannels (numCols d) channels)) =
        d.map (fun _ => true) := by
      apply List.map_congr_left
      intro row _
      simp [rowPass, List.all_eq_true]
    rw [hmap]
    rw [maskFilter_map_filter]
    exact List.filter_eq_self.mpr (fun a _ => rfl)
  · show d.map _ = _
    have hmap : d.map (rowPass none none (selectedChannels (numCols d) channels)) =
        d.map (fun _ => true) := by
      apply List.map_congr_left
      intro row _
      simp [rowPass, List.all_eq_true]
    rw [hmap, List.map_const']

/-! ## C9: nesting of the density gate -/

theorem le_foldl_max_self : ∀ (xs : List Int) (x : Int), x ≤ xs.foldl max x
  | [], _ => le_refl _
  | y :: ys, x => le_trans (le_max_left x y) (le_foldl_max_self ys (max x y))

theorem le_foldl_max_of_mem :
    ∀ (xs : List Int) (x a : Int), a ∈ xs → a ≤ xs.foldl max x
  | [], _, _, ha => absurd ha (List.not_mem_nil _)
  | y :: ys, x, a, ha => by
    rcases List.mem_cons.mp ha with rfl | ha
    · exact le_trans (le_max_right x a) (le_foldl_max_self ys (max x a))
    · exact le_foldl_max_of_mem ys (max x y) a ha

theorem foldl_max_mem : ∀ (xs : List Int) (x : Int), xs.foldl max x ∈ x :: xs
  | [], _ => List.mem_singleton.mpr rfl
  | y :: ys, x => by
    simp only [List.foldl_cons]
    have h := foldl_max_mem ys (max x y)
    rcases List.mem_cons.mp h with hm | hm
    · rw [hm]
      rcases max_choice x y with hc | hc <;> rw [hc]
      · exact List.mem_cons_self _ _
      · exact List.mem_cons_of_mem _ (List.mem_cons_self _ _)
    · exact List.mem_cons_of_mem _ (List.mem_cons_of_mem _ hm)

theorem foldl_min_le_self : ∀ (xs : List Int) (x : Int), xs.foldl min x ≤ x
  | [], _ => le_refl _
  | y :: ys, x => le_trans (foldl_min_le_self ys (min x y)) (min_le_left x y)

theorem foldl_min_le_of_mem :
    ∀ (xs : List Int) (x a : Int), a ∈ xs → xs.foldl min x ≤ a
  | [], _, _, ha => absurd ha (List.not_mem_nil _)
  | y :: ys, x, a, ha => by
    rcases List.mem_cons.mp ha with rfl | ha
    · exact le_trans (foldl_min_le_self ys (min x a)) (min_le_right x a)
    · exact foldl_min_le_of_mem ys (min x y) a ha

theorem foldl_min_mem : ∀ (xs : List Int) (x : Int), xs.foldl min x ∈ x :: xs
  | [], _ => List.mem_singleton.mpr rfl
  | y :: ys, x => by
    simp only [List.foldl_cons]
    have h := foldl_min_mem ys (min x y)
    rcases List.mem_cons.mp h with hm | hm
    · rw [hm]
      rcases min_choice x y with hc | hc <;> rw [hc]
      · exact List.mem_cons_self _ _
      · exact List.mem_cons_of_mem _ (List.mem_cons_self _ _)
    · exact List.mem_cons_of_mem _ (List.mem_cons_of_mem _ hm)

theorem listMax?_mem {l : List Int} {m : Int} (h : listMax? l = some m) : m ∈ l := by
  cases l with
  | nil => cases h
  | cons x xs =>
    injection h with h
    rw [← h]
    exact foldl_max_mem xs x

theorem le_listMax? {l : List Int} {m a : Int} (h : listMax? l = some m)
    (ha : a ∈ l) : a ≤ m := by
  cases l with
  | nil => cases h
  | cons x xs =>
    injection h with h
    rw [← h]
    rcases List.mem_cons.mp ha with rfl | ha
    · exact le_foldl_max_self xs a
    · exact le_foldl_max_of_mem xs x a ha

theorem listMax?_isSome {l : List Int} (h : l ≠ []) : ∃ m, listMax? l = some m := by
  cases l with
  | nil => exact absurd rfl h
  | cons x xs => exact ⟨xs.foldl max x, rfl⟩

/-- The smallest element of a nonempty score list, with its properties. -/
theorem exists_min_score {l : List Int} (h : l ≠ []) :
    ∃ m, m ∈ l ∧ ∀ s ∈ l, m ≤ s := by
  cases l with
  | nil => exact absurd rfl h
  | cons x xs =>
    refine ⟨xs.foldl min x, foldl_min_mem xs x, ?_⟩
    intro s hs
    rcases List.mem_cons.mp hs with rfl | hs
    · exact foldl_min_le_self xs s
    · exact foldl_min_le_of_mem xs x s hs

theorem countGE_all {scores : List Int} {m : Int} (hm : ∀ s ∈ scores, m ≤ s) :
    countGE scores m = scores.length := by
  unfold countGE
  rw [List.filter_eq_self.mpr (fun a ha => decide_eq_true (hm a ha))]

theorem neededCount_le_iff {a b n k : Nat} (hb : 0 < b) :
    neededCount a b n ≤ k ↔ a * n ≤ b * k := by
  unfold neededCount
  rw [Nat.div_le_iff_le_mul_add_pred hb]
  omega

theorem neededCount_mono {a1 b1 a2 b2 n : Nat} (hb1 : 0 < b1) (hb2 : 0 < b2)
    (h : a1 * b2 ≤ a2 * b1) :
    neededCount a1 b1 n ≤ neededCount a2 b2 n := by
  rw [neededCount_le_iff hb1]
  have h2 : a2 * n ≤ b2 * neededCount a2 b2 n := (neededCount_le_iff hb2).mp le_rfl
  have key : b2 * (a1 * n) ≤ b2 * (b1 * neededCount a2 b2 n) := by
    calc b2 * (a1 * n) = (a1 * b2) * n := by ring
    _ ≤ (a2 * b1) * n := Nat.mul_le_mul_right n h
    _ = b1 * (a2 * n) := by ring
    _ ≤ b1 * (b2 * neededCount a2 b2 n) := Nat.mul_le_mul_left b1 h2
    _ = b2 * (b1 * neededCount a2 b2 n) := by ring
  exact Nat.le_of_mul_le_mul_left key hb2

theorem neededCount_le_n {a b n : Nat} (hab : a ≤ b) (hb : 0 < b) :
    neededCount a b n ≤ n :=
  (neededCount_le_iff hb).mpr (Nat.mul_le_mul_right n hab)

/-- C9.  With the kernel density scoring fixed (identical input, channel
pair, bandwidth and grid), the retained set of density2d at gate fraction
a1/b1 is contained in the retained set at a larger fraction a2/b2: every
position whose mask bit is true at the smaller fraction is also true at the
larger one. -/
theorem density2d_nested (score : List Int → Int) (d : List (List Int))
    (a1 b1 a2 b2 : Nat) (hne : d ≠ []) (ha1 : 0 < a1) (h1 : a1 ≤ b1)
    (ha2 : 0 < a2) (h2 : a2 ≤ b2) (hlt : a1 * b2 < a2 * b1) :
    ∀ i, (density2d score d a1 b1).mask.getD i false = true →
      (density2d score d a2 b2).mask.getD i false = true := by
  intro i hmask
  have hb1 : 0 < b1 := lt_of_lt_of_le ha1 h1
  have hb2 : 0 < b2 := lt_of_lt_of_le ha2 h2
  set scores := d.map score with hscores
  have hsne : scores ≠ [] := by
    intro hc
    exact hne (List.map_eq_nil_iff.mp (hscores ▸ hc))
  -- the filtered candidate threshold lists for the two fractions
  set f1 := scores.filter
    (fun t => decide (neededCount a1 b1 scores.length ≤ countGE scores t)) with hf1
  set f2 := scores.filter
    (fun t => decide (neededCount a2 b2 scores.length ≤ countGE scores t)) with hf2
  obtain ⟨m, hm_mem, hm_le⟩ := exists_min_score hsne
  have hfull : countGE scores m = scores.length := countGE_all hm_le
  have hm_f2 : m ∈ f2 := by
    rw [hf2, List.mem_filter]
    exact ⟨hm_mem, decide_eq_true (by rw [hfull]; exact neededCount_le_n h2 hb2)⟩
  have hsub : ∀ t, t ∈ f2 → t ∈ f1 := by
    intro t ht
    rw [hf2, List.mem_filter] at ht
    rw [hf1, List.mem_filter]
    refine ⟨ht.1, decide_eq_true ?_⟩
    have h2c := of_decide_eq_true ht.2
    exact le_trans (neededCount_mono hb1 hb2 (le_of_lt hlt)) h2c
  have hf2ne : f2 ≠ [] := fun hc => by rw [hc] at hm_f2; cases hm_f2
  have hf1ne : f1 ≠ [] := fun hc => by rw [hc] at hsub; cases hsub m hm_f2
  obtain ⟨t1, ht1⟩ := listMax?_isSome hf1ne
  obtain ⟨t2, ht2⟩ := listMax?_isSome hf2ne
  have ht2_le_t1 : t2 ≤ t1 := le_listMax? ht1 (hsub t2 (listMax?_mem ht2))
  -- the two masks as maps over the shared score list
  have hm1 : (density2d score d a1 b1).mask =
      scores.map (fun s => decide (t1 ≤ s)) := by
    show densityMask scores a1 b1 = _
    unfold densityMask
    rw [← hf1, ht1]
  have hm2 : (density2d score d a2 b2).mask =
      scores.map (fun s => decide (t2 ≤ s)) := by
    show densityMask scores a2 b2 = _
    unfold densityMask
    rw [← hf2, ht2]
  rw [hm1] at hmask
  rw [hm2]
  simp only [List.getD_eq_getElem?_getD, List.getElem?_map] at hmask ⊢
  cases hs : scores[i]? with
  | none => rw [hs] at hmask; simp at hmask
  | some s =>
    rw [hs] at hmask
    simp only [Option.map_some', Option.getD_some] at hmask ⊢
    exact decide_eq_true (le_trans ht2_le_t1 (of_decide_eq_true hmask))

/-- Witness for C9: four rows scored by their sum, fractions 1/2 and 1/1;
position 2 is retained at the smaller fraction. -/
def witnessRows : List (List Int) := [[1, 0], [2, 0], [3, 0], [4, 0]]

/-- The scoring function of the witness: the row sum. -/
def rowSum (r : List Int) : Int := r.foldl (· + ·) 0

theorem density2d_nested_witness :
    (density2d rowSum witnessRows 1 1).mask.getD 2 false = true :=
  density2d_nested rowSum witnessRows 1 2 1 1 (by decide) (by decide)
    (by decide) (by decide) (by decide) (by decide) 2 (by decide)

/-! ## Helper lemmas on the Except monad -/

theorem except_bind_ok {ε α β : Type} (a : α) (f : α → Except ε β) :
    (Except.ok a >>= f) = f a := rfl

theorem except_bind_err {ε α β : Type} (e : ε) (f : α → Except ε β) :
    ((Except.error e : Except ε α) >>= f) = Except.error e := rfl

/-! ## C7: the three TEXT-section checks -/

/-- Unfolding equation of textChecks on a token list with at least two
tokens. -/
theorem textChecks_cons_cons (x y : List Char) (ys : List (List Char)) :
    textChecks (x :: y :: ys) =
      if x ≠ [] ∨ (x :: y :: ys).getLastD [] ≠ [] then
        .error (.importError "error parsing TEXT section")
      else if ((y :: ys).dropLast).any (fun t => t.isEmpty) then
        .error (.importError "error parsing TEXT section: delimiter used in keyword or value.")
      else if ((y :: ys).dropLast).length % 2 ≠ 0 then
        .error (.importError "error parsing TEXT section: odd # of key-value entries")
      else .ok ((y :: ys).dropLast) := rfl

/-- Characterization of textChecks on token lists of length at least two
(always the case for a nonempty TEXT region, whose first byte is the
separator itself): it succeeds exactly when the first and last tokens are
empty, no interior token is empty, and the interior token count is even;
every failure is an ImportError. -/
theorem textChecks_spec (l : List (List Char)) (hlen : 2 ≤ l.length) :
    ((textChecks l).isOk = true ↔
      (l.headD [] = [] ∧ l.getLastD [] = [] ∧
        (∀ x ∈ (l.drop 1).dropLast, x ≠ []) ∧
        ((l.drop 1).dropLast).length % 2 = 0)) ∧
    (∀ e, textChecks l = .error e → ∃ m, e = .importError m) := by
  match l, hlen with
  | x :: y :: ys, _ =>
    rw [textChecks_cons_cons]
    simp only [List.headD_cons, List.drop_one, List.tail_cons]
    by_cases hfl : x ≠ [] ∨ (x :: y :: ys).getLastD [] ≠ []
    · rw [if_pos hfl]
      constructor
      · constructor
        · intro hc; cases hc
        · intro ⟨hh, hl, _, _⟩
          rcases hfl with hbad | hbad
          · exact absurd hh hbad
          · exact absurd hl hbad
      · intro e he
        injection he with he
        exact ⟨_, he.symm⟩
    · rw [if_neg hfl]
      push_neg at hfl
      obtain ⟨hx, hlast⟩ := hfl
      by_cases hany : ((y :: ys).dropLast).any (fun t => t.isEmpty) = true
      · rw [if_pos hany]
        constructor
        · constructor
          · intro hc; cases hc
          · intro ⟨_, _, hint, _⟩
            obtain ⟨t, ht_mem, ht_empty⟩ := List.any_eq_true.mp hany
            exact absurd (List.isEmpty_iff.mp ht_empty) (hint t ht_mem)
        · intro e he
          injection he with he
          exact ⟨_, he.symm⟩
      · rw [if_neg hany]
        by_cases hodd : ((y :: ys).dropLast).length % 2 ≠ 0
        · rw [if_pos hodd]
          constructor
          · constructor
            · intro hc; cases hc
            · intro ⟨_, _, _, heven⟩
              exact absurd heven hodd
          · intro e he
            injection he with he
            exact ⟨_, he.symm⟩
        · rw [if_neg hodd]
          push_neg at hodd
          constructor
          · constructor
            · intro _
              refine ⟨hx, hlast, ?_, hodd⟩
              intro t ht_mem hc
              apply hany
              exact List.any_eq_true.mpr ⟨t, ht_mem, by rw [hc]; rfl⟩
            · intro _; rfl
          · intro e he
            cases he

/-- C7.  After splitting the TEXT region, the decoder rejects exactly when
the first or last token is nonempty, an interior token is empty, or the
interior token count is odd; a token list passing all three checks is
accepted by the TEXT-section validation. -/
theorem textChecks_rejects_iff (l : List (List Char)) (hlen : 2 ≤ l.length) :
    (¬ (textChecks l).isOk = true ↔
      (l.headD [] ≠ [] ∨ l.getLastD [] ≠ [] ∨
        (∃ x ∈ (l.drop 1).dropLast, x = []) ∨
        ((l.drop 1).dropLast).length % 2 ≠ 0)) ∧
    (∀ e, textChecks l = .error e → ∃ m, e = .importError m) := by
  obtain ⟨h1, h2⟩ := textChecks_spec l hlen
  refine ⟨?_, h2⟩
  rw [h1]
  constructor
  · intro h
    by_cases ha : l.headD [] = []
    · by_cases hb : l.getLastD [] = []
      · by_cases hc : ∀ x ∈ (l.drop 1).dropLast, x ≠ []
        · by_cases hd : ((l.drop 1).dropLast).length % 2 = 0
          · exact absurd ⟨ha, hb, hc, hd⟩ h
          · exact Or.inr (Or.inr (Or.inr hd))
        · push_neg at hc
          obtain ⟨t, ht, hte⟩ := hc
          exact Or.inr (Or.inr (Or.inl ⟨t, ht, hte⟩))
      · exact Or.inr (Or.inl hb)
    · exact Or.inl ha
  · rintro (h | h | ⟨t, ht, hte⟩ | h) ⟨ha, hb, hc, hd⟩
    · exact h ha
    · exact h hb
    · exact hc t ht hte
    · exact h hd

/-- Witness for C7 at a concrete token list with empty first and last
tokens, nonempty interior tokens and an even interior count: accepted. -/
theorem textChecks_rejects_iff_witness :
    ¬ (textChecks [[], ['a'], ['1'], []]).isOk = true ↔
      (([[], ['a'], ['1'], []] : List (List Char)).headD [] ≠ [] ∨
        ([[], ['a'], ['1'], []] : List (List Char)).getLastD [] ≠ [] ∨
        (∃ x ∈ (([[], ['a'], ['1'], []] : List (List Char)).drop 1).dropLast, x = []) ∨
        ((([[], ['a'], ['1'], []] : List (List Char)).drop 1).dropLast).length % 2 ≠ 0) :=
  (textChecks_rejects_iff [[], ['a'], ['1'], []] (by decide)).1

/-! ## C8: metadata pairing and duplicate keys -/

theorem pairTokens_get? :
    ∀ (i : Nat) (toks : List (List Char)), 2 * i + 1 < toks.length →
      (pairTokens toks).get? i = some (toks.getD (2 * i) [], toks.getD (2 * i + 1) []) := by
  intro i
  induction i with
  | zero =>
    intro toks h
    match toks with
    | k :: v :: rest => rfl
    | [] => simp at h
    | [k] => simp at h
  | succ j ih =>
    intro toks h
    match toks with
    | k :: v :: rest =>
      have hr : 2 * j + 1 < rest.length := by
        simp only [List.length_cons] at h
        omega
      have := ih rest hr
      show (pairTokens rest).get? j = _
      rw [this]
      have h2 : 2 * (j + 1) = 2 * j + 1 + 1 := by omega
      simp [h2]
    | [] => simp at h
    | [k] => simp at h

theorem getLast?_cons_ne_nil {α : Type} (a : α) {l : List α} (h : l ≠ []) :
    (a :: l).getLast? = l.getLast? := by
  cases l with
  | nil => exact absurd rfl h
  | cons b bs => exact List.getLast?_cons_cons

theorem dictGet_eq_getLast? :
    ∀ (ps : Dict) (k : List Char),
      dictGet ps k =
        ((ps.filter fun p => decide (p.1 = k)).getLast?).map Prod.snd := by
  intro ps k
  induction ps with
  | nil => rfl
  | cons p rest ih =>
    obtain ⟨k0, v0⟩ := p
    show (match dictGet rest k with
          | some v2 => some v2
          | none => if k0 = k then some v0 else none) = _
    rw [List.filter_cons]
    cases hdr : dictGet rest k with
    | some v2 =>
      rw [hdr] at ih
      have hne : (rest.filter fun p => decide (p.1 = k)) ≠ [] := by
        intro hc
        rw [hc] at ih
        cases ih
      by_cases hk : k0 = k
      · rw [if_pos (by simp [hk] : decide (k0 = k) = true)]
        rw [getLast?_cons_ne_nil _ hne]
        exact ih
      · rw [if_neg (by simp [hk] : ¬ decide (k0 = k) = true)]
        exact ih
    | none =>
      rw [hdr] at ih
      have hnil : (rest.filter fun p => decide (p.1 = k)) = [] := by
        cases hc : (rest.filter fun p => decide (p.1 = k)) with
        | nil => rfl
        | cons q qs =>
          rw [hc] at ih
          cases hq : (q :: qs).getLast? with
          | none =>
            rw [List.getLast?_eq_none_iff] at hq
            cases hq
          | some z => rw [hq] at ih; cases ih
      rw [hnil]
      by_cases hk : k0 = k
      · rw [if_pos hk, if_pos (by simp [hk] : decide (k0 = k) = true)]
        rfl
      · rw [if_neg hk, if_neg (by simp [hk] : ¬ decide (k0 = k) = true)]
        rfl

/-- C8.  The metadata mapping pairs alternating TEXT tokens as key and
value, and a lookup returns the value paired with the last occurrence of
the key: later duplicates overwrite earlier ones. -/
theorem metadata_pairing_last_wins :
    (∀ (i : Nat) (toks : List (List Char)), 2 * i + 1 < toks.length →
      (pairTokens toks).get? i =
        some (toks.getD (2 * i) [], toks.getD (2 * i + 1) [])) ∧
    (∀ (ps : Dict) (k : List Char),
      dictGet ps k =
        ((ps.filter fun p => decide (p.1 = k)).getLast?).map Prod.snd) :=
  ⟨fun i toks h => pairTokens_get? i toks h, dictGet_eq_getLast?⟩

/-- Witness for C8: token list K,1,K,2 pairs to two entries with the same
key, and lookup returns the value of the last occurrence. -/
theorem metadata_pairing_last_wins_witness :
    (pairTokens [['K'], ['1'], ['K'], ['2']]).get? 1 =
      some (([['K'], ['1'], ['K'], ['2']] : List (List Char)).getD 2 [],
            ([['K'], ['1'], ['K'], ['2']] : List (List Char)).getD 3 []) ∧
    dictGet [(['K'], ['1']), (['K'], ['2'])] ['K'] =
      ((([(['K'], ['1']), (['K'], ['2'])] : Dict).filter
          fun p => decide (p.1 = ['K'])).getLast?).map Prod.snd :=
  ⟨metadata_pairing_last_wins.1 1 [['K'], ['1'], ['K'], ['2']] (by decide),
   metadata_pairing_last_wins.2 [(['K'], ['1']), (['K'], ['2'])] ['K']⟩

/-! ## Decoder inversion helpers -/

/-- A successful decode factors through every stage in order, and the
result components come from the respective stages. -/
theorem decodeFCS_ok_elim {contents : List Char} {r : FCSResult}
    (h : decodeFCS contents = .ok r) :
    ∃ hdr text nc chans data,
      readHeader contents = .ok hdr ∧
      readText contents hdr = .ok text ∧
      confirmAssumptions text = .ok nc ∧
      buildChannels text = .ok chans ∧
      readData contents hdr text = .ok data ∧
      r = ⟨data, text, chans⟩ := by
  unfold decodeFCS at h
  cases h1 : readHeader contents with
  | error e => rw [h1, except_bind_err] at h; cases h
  | ok hdr =>
    rw [h1, except_bind_ok] at h
    cases h2 : readText contents hdr with
    | error e => rw [h2, except_bind_err] at h; cases h
    | ok text =>
      rw [h2, except_bind_ok] at h
      cases h3 : confirmAssumptions text with
      | error e => rw [h3, except_bind_err] at h; cases h
      | ok nc =>
        rw [h3, except_bind_ok] at h
        cases h4 : buildChannels text with
        | error e => rw [h4, except_bind_err] at h; cases h
        | ok chans =>
          rw [h4, except_bind_ok] at h
          cases h5 : readData contents hdr text with
          | error e => rw [h5, except_bind_err] at h; cases h
          | ok data =>
            rw [h5, except_bind_ok] at h
            injection h with h
            exact ⟨hdr, text, nc, chans, data, rfl, h2, h3, h4, h5, h.symm⟩

/-- Whatever the metadata, a successful buildChannels yields exactly six
descriptors numbered 1 to 6, the first five with the extended fields and
the sixth with label and number only. -/
theorem buildChannels_ok_elim {text : Dict} {chans : List Channel}
    (h : buildChannels text = .ok chans) :
    chans.length = 6 ∧
    chans.map (fun c => c.number) = [1, 2, 3, 4, 5, 6] ∧
    (∀ c ∈ chans.take 5, c.extended.isSome = true) ∧
    (∀ c ∈ chans.drop 5, c.extended = none) := by
  unfold buildChannels at h
  cases hA1 : amp (dictGet text (("BD$WORD23").toList)) with
  | error e => rw [hA1, except_bind_err] at h; cases h
  | ok a1 =>
    rw [hA1, except_bind_ok] at h
    cases hA2 : amp (dictGet text (("BD$WORD24").toList)) with
    | error e => rw [hA2, except_bind_err] at h; cases h
    | ok a2 =>
      rw [hA2, except_bind_ok] at h
      cases hA3 : amp (dictGet text (("BD$WORD25").toList)) with
      | error e => rw [hA3, except_bind_err] at h; cases h
      | ok a3 =>
        rw [hA3, except_bind_ok] at h
        cases hA4 : amp (dictGet text (("BD$WORD26").toList)) with
        | error e => rw [hA4, except_bind_err] at h; cases h
        | ok a4 =>
          rw [hA4, except_bind_ok] at h
          cases hA5 : amp (dictGet text (("BD$WORD27").toList)) with
          | error e => rw [hA5, except_bind_err] at h; cases h
          | ok a5 =>
            rw [hA5, except_bind_ok] at h
            injection h with h
            subst h
            refine ⟨rfl, rfl, ?_, ?_⟩
            · intro c hc
              simp only [List.take, List.mem_cons, List.not_mem_nil, or_false] at hc
              rcases hc with rfl | rfl | rfl | rfl | rfl <;> rfl
            · intro c hc
              simp only [List.drop, List.mem_cons, List.not_mem_nil, or_false] at hc
              rw [hc]

/-! ## C2: the channel descriptor list -/

/-- C2 (amended).  The decoder always returns exactly six channel
descriptors, regardless of the declared channel count: they are numbered 1
to 6, the first five carry the extended descriptor fields (gain, secondary
gain, amplifier mode, threshold) and the sixth carries only position and
label. -/
theorem channel_info_always_six (contents : List Char) (r : FCSResult)
    (h : decodeFCS contents = .ok r) :
    r.channel_info.length = 6 ∧
    r.channel_info.map (fun c => c.number) = [1, 2, 3, 4, 5, 6] ∧
    (∀ c ∈ r.channel_info.take 5, c.extended.isSome = true) ∧
    (∀ c ∈ r.channel_info.drop 5, c.extended = none) := by
  obtain ⟨hdr, text, nc, chans, data, _, _, _, h4, _, hr⟩ := decodeFCS_ok_elim h
  have hch : r.channel_info = chans := by rw [hr]
  rw [hch]
  exact buildChannels_ok_elim h4

/-- The exact decode of fileGood: metadata in TEXT order, six channel
descriptors, and the three 2-channel events from the DATA bytes. -/
def fileGoodResult : FCSResult :=
  ⟨[[16706, 17220], [17734, 18248], [18762, 19276]],
   [(("$DATATYPE").toList, ("I").toList),
    (("$MODE").toList, ("L").toList),
    (("$BYTEORD").toList, ("4,3,2,1").toList),
    (("$PAR").toList, ("2").toList),
    (("$P1B").toList, ("16").toList),
    (("$P2B").toList, ("16").toList),
    (("$NEXTDATA").toList, ("0").toList),
    (("$TOT").toList, ("3").toList)],
   [⟨none, 1, some ⟨none, none, none, none⟩⟩,
    ⟨none, 2, some ⟨none, none, none, none⟩⟩,
    ⟨none, 3, some ⟨none, none, none, none⟩⟩,
    ⟨none, 4, some ⟨none, none, none, none⟩⟩,
    ⟨none, 5, some ⟨none, none, none, none⟩⟩,
    ⟨none, 6, none⟩]⟩

/-- Counterexample to C2 as stated: fileGood declares 2 channels in $PAR,
yet the decoder returns a channel descriptor list of length 6, not 2. -/
theorem channel_info_not_PAR :
    (decodeFCS fileGood).map (fun r => r.channel_info.length) = .ok 6 ∧
    (decodeFCS fileGood).map (fun r => dictGet r.text (("$PAR").toList)) =
      .ok (some (("2").toList)) ∧
    (6 : Nat) ≠ 2 := by
  refine ⟨?_, ?_, by decide⟩ <;> decide

theorem channel_info_always_six_witness :
    fileGoodResult.channel_info.length = 6 ∧
    fileGoodResult.channel_info.map (fun c => c.number) = [1, 2, 3, 4, 5, 6] ∧
    (∀ c ∈ fileGoodResult.channel_info.take 5, c.extended.isSome = true) ∧
    (∀ c ∈ fileGoodResult.channel_info.drop 5, c.extended = none) :=
  channel_info_always_six fileGood fileGoodResult (by decide)

/-! ## More Except and lookup rewriting lemmas -/

theorem except_pure_bind {ε α β : Type} (a : α) (f : α → Except ε β) :
    ((pure a : Except ε α) >>= f) = f a := rfl

theorem except_throw {ε α : Type} (e : ε) :
    (throw e : Except ε α) = Except.error e := rfl

theorem pyGetE_some {d : Dict} {k v : List Char} (h : dictGet d k = some v) :
    pyGetE d k = .ok v := by
  unfold pyGetE
  rw [h]

theorem pyGetE_none {d : Dict} {k : List Char} (h : dictGet d k = none) :
    pyGetE d k = .error (.keyError k) := by
  unfold pyGetE
  rw [h]

theorem pyIntE_some {s : List Char} {i : Int} (h : pyInt s = some i) :
    pyIntE s = .ok i := by
  unfold pyIntE
  rw [h]

/-! ## Error classes of the individual decoder checks (C1) -/

theorem readHeader_bad_version {contents : List Char}
    (h : contents.take 10 ≠ ("FCS2.0    ").toList) :
    readHeader contents = .error (.typeError "incorrection FCS file version") := by
  unfold readHeader
  simp only [Stream.read, List.drop_zero]
  rw [if_pos h]
  rfl

theorem confirm_bad_datatype {text : Dict} {v : List Char}
    (hv : dictGet text (("$DATATYPE").toList) = some v)
    (hne : v ≠ ("I").toList) :
    confirmAssumptions text = .error (.typeError "FCS file $DATATYPE is not I") := by
  simp only [confirmAssumptions, pyGetE_some hv, except_bind_ok]
  rw [if_pos hne]
  rfl

theorem confirm_bad_mode {text : Dict} {v : List Char}
    (hdt : dictGet text (("$DATATYPE").toList) = some (("I").toList))
    (hv : dictGet text (("$MODE").toList) = some v)
    (hne : v ≠ ("L").toList) :
    confirmAssumptions text = .error (.typeError "FCS file $MODE is not L") := by
  simp only [confirmAssumptions, pyGetE_some hdt, pyGetE_some hv, except_bind_ok]
  rw [if_neg (fun hc => hc rfl), except_pure_bind]
  rw [if_pos hne]
  rfl

theorem confirm_bad_byteord {text : Dict} {v : List Char}
    (hdt : dictGet text (("$DATATYPE").toList) = some (("I").toList))
    (hmd : dictGet text (("$MODE").toList) = some (("L").toList))
    (hv : dictGet text (("$BYTEORD").toList) = some v)
    (hne : v ≠ ("4,3,2,1").toList) :
    confirmAssumptions text = .error (.typeError "FCS file $BYTEORD is not 4,3,2,1") := by
  simp only [confirmAssumptions, pyGetE_some hdt, pyGetE_some hmd, pyGetE_some hv,
    except_bind_ok]
  rw [if_neg (fun hc => hc rfl), except_pure_bind]
  rw [if_neg (fun hc => hc rfl), except_pure_bind]
  rw [if_pos hne]
  rfl

theorem confirm_bad_bits {text : Dict} {parS : List Char} {n : Int}
    {bits : List Int}
    (hdt : dictGet text (("$DATATYPE").toList) = some (("I").toList))
    (hmd : dictGet text (("$MODE").toList) = some (("L").toList))
    (hbo : dictGet text (("$BYTEORD").toList) = some (("4,3,2,1").toList))
    (hpar : dictGet text (("$PAR").toList) = some parS)
    (hn : pyInt parS = some n)
    (hbits : collectBits text n = .ok bits)
    (hall : bits.all (fun b => decide (b = 16)) = false) :
    confirmAssumptions text =
      .error (.typeError "channel bit width error: $PnB != 16 for all parameters (channels)") := by
  simp only [confirmAssumptions, pyGetE_some hdt, pyGetE_some hmd, pyGetE_some hbo,
    pyGetE_some hpar, pyIntE_some hn, hbits, except_bind_ok]
  rw [if_neg (fun hc => hc rfl), except_pure_bind]
  rw [if_neg (fun hc => hc rfl), except_pure_bind]
  rw [if_neg (fun hc => hc rfl), except_pure_bind]
  rw [if_pos (by rw [hall]; exact Bool.false_ne_true)]
  rfl

theorem confirm_bad_nextdata {text : Dict} {parS v : List Char} {n : Int}
    {bits : List Int}
    (hdt : dictGet text (("$DATATYPE").toList) = some (("I").toList))
    (hmd : dictGet text (("$MODE").toList) = some (("L").toList))
    (hbo : dictGet text (("$BYTEORD").toList) = some (("4,3,2,1").toList))
    (hpar : dictGet text (("$PAR").toList) = some parS)
    (hn : pyInt parS = some n)
    (hbits : collectBits text n = .ok bits)
    (hall : bits.all (fun b => decide (b = 16)) = true)
    (hnd : dictGet text (("$NEXTDATA").toList) = some v)
    (hne : v ≠ ("0").toList) :
    confirmAssumptions text =
      .error (.typeError "FCS file contains more than one data set") := by
  simp only [confirmAssumptions, pyGetE_some hdt, pyGetE_some hmd, pyGetE_some hbo,
    pyGetE_some hpar, pyIntE_some hn, hbits, pyGetE_some hnd, except_bind_ok]
  rw [if_neg (fun hc => hc rfl), except_pure_bind]
  rw [if_neg (fun hc => hc rfl), except_pure_bind]
  rw [if_neg (fun hc => hc rfl), except_pure_bind]
  rw [if_neg (by rw [hall]; exact fun hc => hc rfl), except_pure_bind]
  rw [if_pos hne]
  rfl

theorem readData_size_mismatch {contents : List Char} {h : Header}
    {text : Dict} {totS parS : List Char} {tot par : Int}
    (h1 : dictGet text (("$TOT").toList) = some totS)
    (h2 : pyInt totS = some tot)
    (h3 : dictGet text (("$PAR").toList) = some parS)
    (h4 : pyInt parS = some par)
    (hneq : tot * par * 2 ≠ (h.dataEnd + 1) - h.dataBegin) :
    readData contents h text =
      .error (.importError "DATA size does not match expected array size") := by
  simp only [readData, pyGetE_some h1, pyIntE_some h2, pyGetE_some h3,
    pyIntE_some h4, except_bind_ok]
  rw [if_pos hneq]
  rfl

/-- C1 (amended).  The decoder signals every listed malformed-input
category, but with the two builtin classes TypeError and ImportError, not
one dedicated error class: the version check and the profile checks
(datatype, mode, byte order, bit width, next-dataset) raise TypeError, while
TEXT-section malformation and the DATA-size mismatch raise ImportError. -/
theorem decode_error_two_classes :
    (∀ contents : List Char, contents.take 10 ≠ ("FCS2.0    ").toList →
      readHeader contents = .error (.typeError "incorrection FCS file version")) ∧
    (∀ l : List (List Char), 2 ≤ l.length →
      ∀ e, textChecks l = .error e → ∃ m, e = .importError m) ∧
    (∀ (text : Dict) (v : List Char),
      dictGet text (("$DATATYPE").toList) = some v → v ≠ ("I").toList →
      confirmAssumptions text = .error (.typeError "FCS file $DATATYPE is not I")) ∧
    (∀ (text : Dict) (v : List Char),
      dictGet text (("$DATATYPE").toList) = some (("I").toList) →
      dictGet text (("$MODE").toList) = some v → v ≠ ("L").toList →
      confirmAssumptions text = .error (.typeError "FCS file $MODE is not L")) ∧
    (∀ (text : Dict) (v : List Char),
      dictGet text (("$DATATYPE").toList) = some (("I").toList) →
      dictGet text (("$MODE").toList) = some (("L").toList) →
      dictGet text (("$BYTEORD").toList) = some v → v ≠ ("4,3,2,1").toList →
      confirmAssumptions text = .error (.typeError "FCS file $BYTEORD is not 4,3,2,1")) ∧
    (∀ (text : Dict) (parS : List Char) (n : Int) (bits : List Int),
      dictGet text (("$DATATYPE").toList) = some (("I").toList) →
      dictGet text (("$MODE").toList) = some (("L").toList) →
      dictGet text (("$BYTEORD").toList) = some (("4,3,2,1").toList) →
      dictGet text (("$PAR").toList) = some parS → pyInt parS = some n →
      collectBits text n = .ok bits →
      bits.all (fun b => decide (b = 16)) = false →
      confirmAssumptions text =
        .error (.typeError "channel bit width error: $PnB != 16 for all parameters (channels)")) ∧
    (∀ (text : Dict) (parS v : List Char) (n : Int) (bits : List Int),
      dictGet text (("$DATATYPE").toList) = some (("I").toList) →
      dictGet text (("$MODE").toList) = some (("L").toList) →
      dictGet text (("$BYTEORD").toList) = some (("4,3,2,1").toList) →
      dictGet text (("$PAR").toList) = some parS → pyInt parS = some n →
      collectBits text n = .ok bits →
      bits.all (fun b => decide (b = 16)) = true →
      dictGet text (("$NEXTDATA").toList) = some v → v ≠ ("0").toList →
      confirmAssumptions text =
        .error (.typeError "FCS file contains more than one data set")) ∧
    (∀ (contents : List Char) (h : Header) (text : Dict)
      (totS parS : List Char) (tot par : Int),
      dictGet text (("$TOT").toList) = some totS → pyInt totS = some tot →
      dictGet text (("$PAR").toList) = some parS → pyInt parS = some par →
      tot * par * 2 ≠ (h.dataEnd + 1) - h.dataBegin →
      readData contents h text =
        .error (.importError "DATA size does not match expected array size")) :=
  ⟨fun _ h => readHeader_bad_version h,
   fun l hl => (textChecks_spec l hl).2,
   fun _ _ hv hne => confirm_bad_datatype hv hne,
   fun _ _ hdt hv hne => confirm_bad_mode hdt hv hne,
   fun _ _ hdt hmd hv hne => confirm_bad_byteord hdt hmd hv hne,
   fun _ _ _ _ hdt hmd hbo hpar hn hbits hall =>
     confirm_bad_bits hdt hmd hbo hpar hn hbits hall,
   fun _ _ _ _ _ hdt hmd hbo hpar hn hbits hall hnd hne =>
     confirm_bad_nextdata hdt hmd hbo hpar hn hbits hall hnd hne,
   fun _ _ _ _ _ _ _ h1 h2 h3 h4 hneq =>
     readData_size_mismatch h1 h2 h3 h4 hneq⟩

/-- Counterexample to C1 as stated: two malformed inputs from the listed
categories raise exceptions of two different classes, so no single
dedicated error class covers all structural and profile violations. -/
theorem decode_error_not_one_class :
    decodeFCS fileBadVersion = .error (.typeError "incorrection FCS file version") ∧
    decodeFCS fileBadText = .error (.importError "error parsing TEXT section") ∧
    PyErr.typeError "incorrection FCS file version" ≠
      PyErr.importError "error parsing TEXT section" := by
  refine ⟨?_, ?_, by decide⟩ <;> decide

/-- A metadata dictionary with an unsupported byte order, used in the C1
witness. -/
def textBadByteord : Dict :=
  [(("$DATATYPE").toList, ("I").toList),
   (("$MODE").toList, ("L").toList),
   (("$BYTEORD").toList, ("1,2,3,4").toList)]

/-- A metadata dictionary with one 8-bit channel, used in the C1 witness. -/
def textBadBits : Dict :=
  [(("$DATATYPE").toList, ("I").toList),
   (("$MODE").toList, ("L").toList),
   (("$BYTEORD").toList, ("4,3,2,1").toList),
   (("$PAR").toList, ("1").toList),
   (("$P1B").toList, ("8").toList)]

/-- A metadata dictionary declaring a second dataset, used in the C1
witness. -/
def textBadNextdata : Dict :=
  [(("$DATATYPE").toList, ("I").toList),
   (("$MODE").toList, ("L").toList),
   (("$BYTEORD").toList, ("4,3,2,1").toList),
   (("$PAR").toList, ("1").toList),
   (("$P1B").toList, ("16").toList),
   (("$NEXTDATA").toList, ("1").toList)]

/-- A metadata dictionary with event and channel counts that cannot match
an empty DATA region, used in the C1 witness. -/
def textSizeMismatch : Dict :=
  [(("$TOT").toList, ("2").toList), (("$PAR").toList, ("2").toList)]

theorem decode_error_two_classes_witness :
    readHeader fileBadVersion = .error (.typeError "incorrection FCS file version") ∧
    (∃ m, PyErr.importError "error parsing TEXT section" = .importError m) ∧
    confirmAssumptions [(("$DATATYPE").toList, ("F").toList)] =
      .error (.typeError "FCS file $DATATYPE is not I") ∧
    confirmAssumptions
        [(("$DATATYPE").toList, ("I").toList), (("$MODE").toList, ("U").toList)] =
      .error (.typeError "FCS file $MODE is not L") ∧
    confirmAssumptions textBadByteord =
      .error (.typeError "FCS file $BYTEORD is not 4,3,2,1") ∧
    confirmAssumptions textBadBits =
      .error (.typeError "channel bit width error: $PnB != 16 for all parameters (channels)") ∧
    confirmAssumptions textBadNextdata =
      .error (.typeError "FCS file contains more than one data set") ∧
    readData [] ⟨0, 0, 0, 0⟩ textSizeMismatch =
      .error (.importError "DATA size does not match expected array size") :=
  ⟨decode_error_two_classes.1 fileBadVersion (by decide),
   decode_error_two_classes.2.1 [[], ['a']] (by decide)
     (.importError "error parsing TEXT section") (by decide),
   decode_error_two_classes.2.2.1 [(("$DATATYPE").toList, ("F").toList)]
     (("F").toList) (by decide) (by decide),
   decode_error_two_classes.2.2.2.1
     [(("$DATATYPE").toList, ("I").toList), (("$MODE").toList, ("U").toList)]
     (("U").toList) (by decide) (by decide) (by decide),
   decode_error_two_classes.2.2.2.2.1 textBadByteord (("1,2,3,4").toList)
     (by decide) (by decide) (by decide) (by decide),
   decode_error_two_classes.2.2.2.2.2.1 textBadBits (("1").toList) 1 [8]
     (by decide) (by decide) (by decide) (by decide) (by decide) (by decide)
     (by decide),
   decode_error_two_classes.2.2.2.2.2.2.1 textBadNextdata (("1").toList)
     (("1").toList) 1 [16] (by decide) (by decide) (by decide) (by decide)
     (by decide) (by decide) (by decide) (by decide) (by decide),
   decode_error_two_classes.2.2.2.2.2.2.2 [] ⟨0, 0, 0, 0⟩ textSizeMismatch
     (("2").toList) (("2").toList) 2 2 (by decide) (by decide) (by decide)
     (by decide) (by decide)⟩

/-! ## C3: file-handle release -/

/-- Counterexample to C3 as stated: on a path input whose decode raises a
structural error, the internally opened handle is never closed — there is
no try/finally around the parse. -/
theorem close_skipped_on_error :
    (load_from_file true fileBadVersion).1 =
      .error (.typeError "incorrection FCS file version") ∧
    (load_from_file true fileBadVersion).2 = false := by
  refine ⟨?_, ?_⟩ <;> decide

/-- C3 (amended).  A caller-supplied stream is never closed by the decoder;
an internally opened handle (path input) is closed exactly on the
successful exit path, and left open when any exception propagates. -/
theorem stream_close_semantics : ∀ contents : List Char,
    ((load_from_file false contents).2 = false) ∧
    ((load_from_file true contents).2 = true ↔
      ∃ r, (load_from_file true contents).1 = .ok r) := by
  intro contents
  unfold load_from_file
  cases decodeFCS contents with
  | ok r => simp
  | error e => simp

/-! ## C6: the DATA-region size check -/

theorem beU16_length : ∀ xs : List Char, (beU16 xs).length = xs.length / 2
  | [] => rfl
  | [_] => by simp [beU16]
  | _ :: _ :: rest => by
    show (beU16 rest).length + 1 = _
    rw [beU16_length rest]
    simp only [List.length_cons]
    omega

theorem chunkRows_length (cols : Nat) :
    ∀ (r : Nat) (xs : List Nat), (chunkRows cols r xs).length = r
  | 0, _ => rfl
  | n + 1, xs => by
    show (chunkRows cols n (xs.drop cols)).length + 1 = n + 1
    rw [chunkRows_length cols n]

theorem chunkRows_row_length (cols : Nat) :
    ∀ (r : Nat) (xs : List Nat), xs.length = r * cols →
      ∀ row ∈ chunkRows cols r xs, row.length = cols
  | 0, xs, _, row, hrow => absurd hrow (List.not_mem_nil row)
  | n + 1, xs, h, row, hrow => by
    rcases List.mem_cons.mp hrow with rfl | hmem
    · rw [List.length_take]
      have : cols ≤ xs.length := by
        rw [h, Nat.succ_mul]
        omega
      omega
    · refine chunkRows_row_length cols n (xs.drop cols) ?_ row hmem
      rw [List.length_drop, h, Nat.succ_mul]
      omega

/-- C6.  Once $TOT and $PAR are read (with nonnegative values, offsets
inside the file): the decoder rejects with the DATA-size ImportError exactly
when (data_end + 1) - data_begin differs from tot * par * 2; when they are
equal it decodes a matrix of tot rows with par values each. -/
theorem data_size_check_spec (contents : List Char) (h : Header)
    (text : Dict) (totS parS : List Char) (tot par : Nat)
    (h1 : dictGet text (("$TOT").toList) = some totS)
    (h2 : pyInt totS = some (tot : Int))
    (h3 : dictGet text (("$PAR").toList) = some parS)
    (h4 : pyInt parS = some (par : Int))
    (hbegin : 0 ≤ h.dataBegin)
    (hroom : h.dataBegin.toNat + tot * par * 2 ≤ contents.length) :
    ((tot : Int) * (par : Int) * 2 ≠ (h.dataEnd + 1) - h.dataBegin →
      readData contents h text =
        .error (.importError "DATA size does not match expected array size")) ∧
    ((tot : Int) * (par : Int) * 2 = (h.dataEnd + 1) - h.dataBegin →
      ∃ data, readData contents h text = .ok data ∧
        data.length = tot ∧ ∀ row ∈ data, row.length = par) := by
  constructor
  · intro hneq
    exact readData_size_mismatch h1 h2 h3 h4 hneq
  · intro heq
    simp only [readData, pyGetE_some h1, pyIntE_some h2, pyGetE_some h3,
      pyIntE_some h4, except_bind_ok]
    rw [if_neg (fun hc => hc heq)]
    obtain ⟨ofs, hofs⟩ := Int.eq_ofNat_of_zero_le hbegin
    unfold memmapRead
    rw [hofs] at hroom ⊢
    have hcond : ¬ ((ofs : Int) < 0 ∨ (tot : Int) < 0 ∨ (par : Int) < 0) := by
      push_neg
      exact ⟨Int.ofNat_nonneg ofs, Int.ofNat_nonneg tot, Int.ofNat_nonneg par⟩
    rw [if_neg hcond]
    simp only [Int.toNat_ofNat]
    rw [if_neg (by omega)]
    refine ⟨_, rfl, ?_, ?_⟩
    · exact chunkRows_length par tot _
    · refine chunkRows_row_length par tot _ ?_
      rw [beU16_length, List.length_take, List.length_drop]
      have : tot * par * 2 ≤ contents.length - ofs := by omega
      rw [min_eq_left this]
      omega

/-- A metadata dictionary declaring 3 events of 2 channels, used in the C6
witness. -/
def textSizeMismatch3 : Dict :=
  [(("$TOT").toList, ("3").toList), (("$PAR").toList, ("2").toList)]

/-- Witness for C6: a 12-byte buffer, inclusive data offsets 0 to 11, and a
metadata dictionary declaring 3 events of 2 channels: 3 * 2 * 2 = 12
matches, and the decode yields a 3 x 2 matrix. -/
theorem data_size_check_spec_witness :
    ∃ data, readData (("ABCDEFGHIJKL").toList) ⟨0, 0, 0, 11⟩ textSizeMismatch3 =
        .ok data ∧ data.length = 3 ∧ ∀ row ∈ data, row.length = 2 :=
  (data_size_check_spec (("ABCDEFGHIJKL").toList) ⟨0, 0, 0, 11⟩
    textSizeMismatch3 (("3").toList) (("2").toList) 3 2
    (by decide) (by decide) (by decide) (by decide) (by decide) (by decide)).2
    (by decide)

/-! ## C10: missing mandatory keys raise KeyError -/

/-- C10.  Files passing the version and TEXT-structure checks but lacking a
mandatory key fail with a KeyError naming the key, coming from direct dict
indexing, not with a format or validation error. -/
theorem missing_keys_raise_keyError :
    decodeFCS fileNoDatatype = .error (.keyError (("$DATATYPE").toList)) ∧
    decodeFCS fileNoPnB = .error (.keyError (("$P2B").toList)) ∧
    decodeFCS fileNoTot = .error (.keyError (("$TOT").toList)) := by
  refine ⟨?_, ?_, ?_⟩ <;> decide

end FlowCal
